import Mathlib

/-!
Space Observation Journal — service worker (`src/sw.js`): a shallow embedding.

This file embeds the cache-policy engine of `src/sw.js` in Lean 4 and proves
properties of it.  The embedding follows the source function by function:

* `CACHE_NAME`, `PRECACHE_ASSETS` — the configuration constants;
* `CacheStorage` with `cachesMatch`, `cachesOpen`, `cachesPut`, `cachesKeys`,
  `cachesDelete` — the host `caches` facility, a list of named generations,
  each an association list from request URL to stored response;
* `offlineFallback`, `cacheFirstStrategy`, `networkFirstStrategy` — the
  strategy helpers;
* `route` / `handleFetch` — the `fetch` listener's dispatch;
* `onInstall`, `onActivate`, `onMessage` — the lifecycle listeners.

The network is modelled as an explicit argument: `Option Response`, where
`none` means the `fetch` call threw (network error) and `some r` means it
resolved with response `r` (of any status — in the Fetch API a 404 resolves,
it does not throw).  Each strategy result carries a count of how many times
the network function was invoked during that execution, so that "no network
fetch is performed" is statable.  `Response.clone` is the structural copy
made by `networkResponse.clone()`.
-/

/-- An HTTP response as the engine observes it: status, status text, body
snapshot and the one header the source ever sets (`Content-Type`). -/
structure Response where
  status : Nat
  statusText : String
  body : String
  contentType : Option String
deriving Repr, DecidableEq

/-- Model of `response.clone()` — an independent structural duplicate (the body can
only be consumed once, so the source stores a clone, never the object it
returns to the caller). -/
def Response.clone (r : Response) : Response :=
  ⟨r.status, r.statusText, r.body, r.contentType⟩

/-- A request as the engine observes it.  `protocol` is `url.protocol`
(scheme plus the trailing colon, e.g. `"https:"`), `hostname` is
`url.hostname`, `accept` is the value of the `accept` header when present.
The URL string itself is the store key (only GET requests ever reach the
store, so method + URL degenerates to the URL). -/
structure Request where
  method : String
  url : String
  protocol : String
  hostname : String
  destination : String
  accept : Option String
deriving Repr, DecidableEq

/-- One cache generation's contents: an association list from request URL to
stored response.  A later `put` for the same key overwrites in place. -/
abbrev CacheEntries := List (String × Response)

/-- The host `caches` facility: named generations in creation order. -/
structure CacheStorage where
  generations : List (String × CacheEntries)
deriving Repr, DecidableEq

/-- Overwrite-or-append for one generation's entries (`cache.put`). -/
def entriesPut : CacheEntries → String → Response → CacheEntries
  | [], k, v => [(k, v)]
  | (k', v') :: rest, k, v =>
      if k' = k then (k, v) :: rest else (k', v') :: entriesPut rest k v

/-- Lookup in one generation's entries. -/
def entriesGet : CacheEntries → String → Option Response
  | [], _ => none
  | (k', v') :: rest, k => if k' = k then some v' else entriesGet rest k

/-- Model of `caches.match(request)` — searches every generation in creation order
and returns the first stored response for the key, across ALL generations,
current or stale. -/
def cachesMatch (s : CacheStorage) (k : String) : Option Response :=
  go s.generations
where
  go : List (String × CacheEntries) → Option Response
    | [] => none
    | (_, es) :: rest =>
        match entriesGet es k with
        | some r => some r
        | none => go rest

/-- Model of `caches.open(name)` — returns the named generation, creating it empty at
the end of the list if absent. -/
def cachesOpen (s : CacheStorage) (name : String) : CacheStorage :=
  if s.generations.any (fun g => g.1 = name) then s
  else ⟨s.generations ++ [(name, [])]⟩

/-- Model of `cache.put(request, response)` on the generation called `name`. -/
def cachesPut (s : CacheStorage) (name k : String) (v : Response) : CacheStorage :=
  ⟨s.generations.map (fun g => if g.1 = name then (g.1, entriesPut g.2 k v) else g)⟩

/-- Model of `caches.keys()` — all generation tags in creation order. -/
def cachesKeys (s : CacheStorage) : List String :=
  s.generations.map (fun g => g.1)

/-- Model of `caches.delete(name)` — removes the named generation. -/
def cachesDelete (s : CacheStorage) (name : String) : CacheStorage :=
  ⟨s.generations.filter (fun g => g.1 ≠ name)⟩

-- ─── Cache Configuration (src/sw.js lines 14–27) ───

def CACHE_NAME : String := "space-observation-journal-v1"

def PRECACHE_ASSETS : List String :=
  ["/", "/index.html", "/manifest.json", "/icon-192.png", "/icon-512.png"]

-- ─── Offline fallback (src/sw.js lines 172–213) ───

/-- JavaScript `String.prototype.includes` on characters: is `pat` a
contiguous substring of `s`?  Helper for the `accept` header check. -/
def pfxOf : List Char → List Char → Bool
  | [], _ => true
  | _ :: _, [] => false
  | a :: as, b :: bs => a = b && pfxOf as bs

def hasSub (pat : List Char) : List Char → Bool
  | [] => pfxOf pat []
  | c :: rest => pfxOf pat (c :: rest) || hasSub pat rest

def strIncludes (s pat : String) : Bool :=
  hasSub pat.data s.data

/-- JavaScript `String.prototype.startsWith` on characters: is `pre` a
prefix of `s`?  Helper for the `url.protocol.startsWith('http')` check of
the fetch listener. -/
def strStarts (s pre : String) : Bool :=
  pfxOf pre.data s.data

/-- The fixed offline page served for document/HTML requests (the template
literal at src/sw.js lines 178–206; `\x7b`/`\x7d` denote the braces and
`\x27` the apostrophes of the original text). -/
def offlineHTMLBody : String :=
  "<!DOCTYPE html>\n<html lang=\"en\">\n<head>\n  <meta charset=\"UTF-8\">\n  <meta name=\"viewport\" content=\"width=device-width, initial-scale=1.0\">\n  <title>Space Journal — Offline</title>\n  <style>\n    body \x7b background: #03040a; color: #e2e8f0; font-family: sans-serif;\n           display: flex; align-items: center; justify-content: center;\n           min-height: 100vh; margin: 0; text-align: center; padding: 20px; \x7d\n    h1 \x7b background: linear-gradient(135deg,#a855f7,#3b82f6);\n         -webkit-background-clip: text; -webkit-text-fill-color: transparent;\n         font-size: 2rem; margin-bottom: 12px; \x7d\n    p \x7b color: #94a3b8; margin-bottom: 24px; \x7d\n    button \x7b background: linear-gradient(135deg,#7c3aed,#3b82f6);\n             color: white; border: none; padding: 12px 28px;\n             border-radius: 50px; cursor: pointer; font-size: 1rem; \x7d\n  </style>\n</head>\n<body>\n  <div>\n    <div style=\"font-size:4rem;margin-bottom:16px\">🌌</div>\n    <h1>You\x27re Offline</h1>\n    <p>The Space Observation Journal requires an internet connection for the first load.<br>\n       Once loaded, it works completely offline.</p>\n    <button onclick=\"window.location.reload()\">Try Again</button>\n  </div>\n</body>\n</html>"

/-- Model of `offlineFallback(request)` — a pure function of the request.  For a
document navigation, or when the `accept` header includes `text/html`, it
builds the fixed offline page with status 200; otherwise it builds
`new Response('Offline', \x7b status: 503, statusText: 'Service Unavailable' \x7d)`.
(The source also constructs `new URL(request.url)` into a variable it never
reads; that dead binding is not modelled.) -/
def offlineFallback (req : Request) : Response :=
  if req.destination == "document"
      || (match req.accept with
          | some a => strIncludes a "text/html"
          | none => false) then
    ⟨200, "", offlineHTMLBody, some "text/html; charset=utf-8"⟩
  else
    ⟨503, "Service Unavailable", "Offline", none⟩

-- ─── Strategy helpers (src/sw.js lines 118–166) ───

/-- The outcome of one strategy execution: the response resolved to the
caller, the cache storage afterwards, and how many times the network
function `fetch` was invoked during the execution. -/
structure StrategyResult where
  response : Response
  store : CacheStorage
  fetches : Nat
deriving Repr, DecidableEq

/-- Model of `cacheFirstStrategy(request)` (src/sw.js lines 118–141).  `net` is the
behaviour of the one possible `fetch` call: `none` = throws, `some r` =
resolves with `r`.  A thrown fetch is caught at the strategy boundary and
answered with `offlineFallback`. -/
def cacheFirstStrategy (s : CacheStorage) (req : Request) (net : Option Response) :
    StrategyResult :=
  match cachesMatch s req.url with
  | some cachedResponse => ⟨cachedResponse, s, 0⟩
  | none =>
      match net with
      | none => ⟨offlineFallback req, s, 1⟩
      | some networkResponse =>
          if networkResponse.status = 200 then
            let s1 := cachesOpen s CACHE_NAME
            ⟨networkResponse, cachesPut s1 CACHE_NAME req.url networkResponse.clone, 1⟩
          else
            ⟨networkResponse, s, 1⟩

/-- Model of `networkFirstStrategy(request)` (src/sw.js lines 147–166).  Network
first; on a thrown fetch, fall back to `caches.match`, then to
`offlineFallback`. -/
def networkFirstStrategy (s : CacheStorage) (req : Request) (net : Option Response) :
    StrategyResult :=
  match net with
  | some networkResponse =>
      if networkResponse.status = 200 then
        let s1 := cachesOpen s CACHE_NAME
        ⟨networkResponse, cachesPut s1 CACHE_NAME req.url networkResponse.clone, 1⟩
      else
        ⟨networkResponse, s, 1⟩
  | none =>
      match cachesMatch s req.url with
      | some cachedResponse => ⟨cachedResponse, s, 1⟩
      | none => ⟨offlineFallback req, s, 1⟩

-- ─── Fetch event dispatch (src/sw.js lines 91–110) ───

/-- The routing outcome of the `fetch` listener: bypass (the listener
returns without calling `event.respondWith`, so the request passes through
untouched), or dispatch to one of the two strategies. -/
inductive RouteDecision where
  | bypass
  | networkFirst
  | cacheFirst
deriving Repr, DecidableEq

/-- The ordered decision rule of the `fetch` listener: non-GET methods
bypass; then protocols not starting with `"http"` bypass; then the two
Google-Fonts hostnames go network-first; everything else cache-first. -/
def route (req : Request) : RouteDecision :=
  if req.method ≠ "GET" then .bypass
  else if ¬ strStarts req.protocol "http" then .bypass
  else if req.hostname = "fonts.googleapis.com" ∨ req.hostname = "fonts.gstatic.com" then
    .networkFirst
  else .cacheFirst

/-- The whole `fetch` listener: `none` when the request is not intercepted
(no strategy invoked, the store untouched); otherwise the result of the
dispatched strategy. -/
def handleFetch (s : CacheStorage) (req : Request) (net : Option Response) :
    Option StrategyResult :=
  match route req with
  | .bypass => none
  | .networkFirst => some (networkFirstStrategy s req net)
  | .cacheFirst => some (cacheFirstStrategy s req net)

-- ─── Install event (src/sw.js lines 35–52) ───

/-- Fetch-API success as `cache.addAll` judges it (`response.ok`):
status in the 2xx range. -/
def fetchOk (r : Response) : Bool :=
  200 ≤ r.status && r.status ≤ 299

/-- Model of `cache.addAll(urls)` — fetches every URL; succeeds with the fetched
entries only if every fetch resolves with an ok status, and is atomic:
on any failure nothing at all is written. -/
def addAll (net : String → Option Response) : List String →
    Option (List (String × Response))
  | [] => some []
  | u :: rest =>
      match net u with
      | some r =>
          if fetchOk r then (addAll net rest).map (fun l => (u, r) :: l)
          else none
      | none => none

/-- The observable outcome of the install listener. -/
structure InstallResult where
  store : CacheStorage
  skipWaitingCalled : Bool
  errorLogged : Bool
deriving Repr, DecidableEq

/-- The `install` listener: open the current generation, `addAll` the
precache manifest, then `skipWaiting()`; any failure is caught by the final
`.catch`, which only logs a warning (so the promise chain never crashes and
`skipWaiting` is not reached). -/
def onInstall (s : CacheStorage) (net : String → Option Response) : InstallResult :=
  let s1 := cachesOpen s CACHE_NAME
  match addAll net PRECACHE_ASSETS with
  | some entries =>
      ⟨entries.foldl (fun st e => cachesPut st CACHE_NAME e.1 e.2) s1, true, false⟩
  | none => ⟨s1, false, true⟩

-- ─── Activate event (src/sw.js lines 60–79) ───

/-- The externally visible actions of the activate listener, in order. -/
inductive SWEvent where
  | deleteGen (name : String)
  | claimClients
deriving Repr, DecidableEq

/-- The `activate` listener: list all generation tags, delete every one
different from `CACHE_NAME` (`Promise.all` waits for all deletions), and
only then `clients.claim()`.  Returns the storage afterwards and the action
trace. -/
def onActivate (s : CacheStorage) : CacheStorage × List SWEvent :=
  let toDelete := (cachesKeys s).filter (fun n => n ≠ CACHE_NAME)
  (toDelete.foldl cachesDelete s,
   toDelete.map SWEvent.deleteGen ++ [SWEvent.claimClients])

-- ─── Message event (src/sw.js lines 219–223) ───

/-- The payload of a `message` event; `event.data` may be absent (null). -/
structure MessageData where
  type : String
deriving Repr, DecidableEq

/-- The `message` listener, modelled by the number of times it invokes
`self.skipWaiting()`: once when `event.data` is present with type
`"SKIP_WAITING"`, zero times otherwise (and it never throws — it is a total
function). -/
def onMessage (data : Option MessageData) : Nat :=
  match data with
  | some d => if d.type = "SKIP_WAITING" then 1 else 0
  | none => 0

-- ─── Observation helpers ───

/-- First generation with the given tag (association-list lookup, matching
how the host resolves a cache name). -/
def findGen : List (String × CacheEntries) → String → Option CacheEntries
  | [], _ => none
  | (n, es) :: rest, name => if n = name then some es else findGen rest name

/-- The response stored for key `k` inside the generation called `name`. -/
def cacheGet (s : CacheStorage) (name k : String) : Option Response :=
  match findGen s.generations name with
  | some es => entriesGet es k
  | none => none

-- ─── Concrete sample data, used by witnesses and counterexamples ───

def respR : Response := ⟨200, "", "PNGDATA", some "image/png"⟩

def resp404 : Response := ⟨404, "Not Found", "missing", none⟩

def respFont : Response := ⟨200, "", "WOFF2DATA", some "font/woff2"⟩

def respOld : Response := ⟨200, "", "OLDDATA", some "image/png"⟩

def reqA : Request :=
  ⟨"GET", "https://app.example/a.png", "https:", "app.example", "image", none⟩

def reqB : Request :=
  ⟨"GET", "https://app.example/b.png", "https:", "app.example", "image", none⟩

def reqFont : Request :=
  ⟨"GET", "https://fonts.gstatic.com/f.woff2", "https:", "fonts.gstatic.com",
   "font", none⟩

def reqPost : Request :=
  ⟨"POST", "https://app.example/api", "https:", "app.example", "", none⟩

def reqHttpx : Request :=
  ⟨"GET", "httpx://app.example/x", "httpx:", "app.example", "", none⟩

def reqOld : Request :=
  ⟨"GET", "https://app.example/old.png", "https:", "app.example", "image", none⟩

def emptyStore : CacheStorage := ⟨[]⟩

def storeA : CacheStorage :=
  ⟨[(CACHE_NAME, [("https://app.example/a.png", respR)])]⟩

/-- A storage with a stale, not-yet-swept generation holding `/old.png`
while the current generation is empty. -/
def staleStore : CacheStorage :=
  ⟨[("space-observation-journal-v0", [("https://app.example/old.png", respOld)]),
    (CACHE_NAME, [])]⟩

/-- A storage with one stale and one current generation, both empty. -/
def twoGenStore : CacheStorage :=
  ⟨[("space-observation-journal-v0", []), (CACHE_NAME, [])]⟩

-- ─── Shared lemmas about the store primitives ───

theorem Response.clone_eq (r : Response) : r.clone = r := rfl

theorem entriesGet_entriesPut_self (es : CacheEntries) (k : String) (v : Response) :
    entriesGet (entriesPut es k v) k = some v := by
  induction es with
  | nil => simp [entriesPut, entriesGet]
  | cons e rest ih =>
      obtain ⟨k', v'⟩ := e
      by_cases h : k' = k
      · simp [entriesPut, h, entriesGet]
      · simp [entriesPut, h, entriesGet, ih]

theorem findGen_map_put (gens : List (String × CacheEntries)) (name k : String)
    (v : Response) :
    findGen (gens.map (fun g => if g.1 = name then (g.1, entriesPut g.2 k v) else g)) name
      = (findGen gens name).map (fun es => entriesPut es k v) := by
  induction gens with
  | nil => rfl
  | cons g rest ih =>
      obtain ⟨n, es⟩ := g
      simp only [List.map_cons]
      by_cases h : n = name
      · subst h
        rw [show (if ((n, es) : String × CacheEntries).1 = n
              then ((n, es).1, entriesPut (n, es).2 k v) else (n, es))
            = ((n, entriesPut es k v) : String × CacheEntries) from if_pos rfl]
        simp [findGen]
      · rw [show (if ((n, es) : String × CacheEntries).1 = name
              then ((n, es).1, entriesPut (n, es).2 k v) else (n, es))
            = ((n, es) : String × CacheEntries) from if_neg h]
        simp [findGen, h, ih]

theorem findGen_map_put_ne (gens : List (String × CacheEntries)) (name k : String)
    (v : Response) (g' : String) (hne : g' ≠ name) :
    findGen (gens.map (fun g => if g.1 = name then (g.1, entriesPut g.2 k v) else g)) g'
      = findGen gens g' := by
  induction gens with
  | nil => rfl
  | cons g rest ih =>
      obtain ⟨n, es⟩ := g
      simp only [List.map_cons]
      by_cases h : n = name
      · subst h
        rw [show (if ((n, es) : String × CacheEntries).1 = n
              then ((n, es).1, entriesPut (n, es).2 k v) else (n, es))
            = ((n, entriesPut es k v) : String × CacheEntries) from if_pos rfl]
        have hng : n ≠ g' := fun hc => hne hc.symm
        simp [findGen, hng, ih]
      · rw [show (if ((n, es) : String × CacheEntries).1 = name
              then ((n, es).1, entriesPut (n, es).2 k v) else (n, es))
            = ((n, es) : String × CacheEntries) from if_neg h]
        by_cases h2 : n = g'
        · simp [findGen, h2]
        · simp [findGen, h2, ih]

theorem findGen_append (l1 l2 : List (String × CacheEntries)) (name : String) :
    findGen (l1 ++ l2) name
      = match findGen l1 name with
        | some es => some es
        | none => findGen l2 name := by
  induction l1 with
  | nil => rfl
  | cons g rest ih =>
      obtain ⟨n, es⟩ := g
      by_cases h : n = name
      · simp [findGen, h]
      · simp [findGen, h, ih]

theorem findGen_none_of_any_eq_false (gens : List (String × CacheEntries))
    (name : String) (h : gens.any (fun g => g.1 = name) = false) :
    findGen gens name = none := by
  induction gens with
  | nil => rfl
  | cons g rest ih =>
      obtain ⟨n, es⟩ := g
      simp only [List.any_cons, Bool.or_eq_false_iff] at h
      have hn : n ≠ name := by
        intro hc
        simp [hc] at h
      simp [findGen, hn, ih h.2]

theorem findGen_isSome_of_any_eq_true (gens : List (String × CacheEntries))
    (name : String) (h : gens.any (fun g => g.1 = name) = true) :
    ∃ es, findGen gens name = some es := by
  induction gens with
  | nil => simp at h
  | cons g rest ih =>
      obtain ⟨n, es⟩ := g
      by_cases hn : n = name
      · exact ⟨es, by simp [findGen, hn]⟩
      · simp only [List.any_cons] at h
        have h2 : rest.any (fun g => g.1 = name) = true := by
          rcases Bool.or_eq_true_iff.mp h with h1 | h1
          · exact absurd (of_decide_eq_true h1) hn
          · exact h1
        obtain ⟨es', hes'⟩ := ih h2
        exact ⟨es', by simp [findGen, hn, hes']⟩

theorem findGen_cachesOpen_self (s : CacheStorage) (name : String) :
    ∃ es, findGen ((cachesOpen s name).generations) name = some es := by
  unfold cachesOpen
  by_cases h : s.generations.any (fun g => g.1 = name) = true
  · simp only [h, if_true]
    exact findGen_isSome_of_any_eq_true s.generations name h
  · have hf : s.generations.any (fun g => g.1 = name) = false := by
      revert h; cases s.generations.any (fun g => g.1 = name) <;> simp
    simp only [hf, Bool.false_eq_true, if_false]
    refine ⟨[], ?_⟩
    rw [findGen_append, findGen_none_of_any_eq_false s.generations name hf]
    simp [findGen]

theorem findGen_cachesOpen_ne (s : CacheStorage) (name g' : String) (hne : g' ≠ name) :
    findGen ((cachesOpen s name).generations) g' = findGen s.generations g' := by
  unfold cachesOpen
  by_cases h : s.generations.any (fun g => g.1 = name) = true
  · simp [h]
  · have hf : s.generations.any (fun g => g.1 = name) = false := by
      revert h; cases s.generations.any (fun g => g.1 = name) <;> simp
    simp only [hf, Bool.false_eq_true, if_false]
    rw [findGen_append]
    cases hg : findGen s.generations g'
    · have hng : name ≠ g' := fun hc => hne hc.symm
      simp [findGen, hng]
    · simp

theorem cacheGet_put_open_self (s : CacheStorage) (k : String) (v : Response) :
    cacheGet (cachesPut (cachesOpen s CACHE_NAME) CACHE_NAME k v) CACHE_NAME k
      = some v := by
  obtain ⟨es, hes⟩ := findGen_cachesOpen_self s CACHE_NAME
  unfold cacheGet cachesPut
  simp only [findGen_map_put, hes, Option.map_some]
  exact entriesGet_entriesPut_self es k v

theorem filter_eq_singleton_of_nodup (l : List String) (a : String)
    (hd : l.Nodup) (ha : a ∈ l) : l.filter (fun n => n = a) = [a] := by
  induction l with
  | nil => simp at ha
  | cons b rest ih =>
      rcases List.mem_cons.mp ha with h | h
      · subst h
        have hnr : a ∉ rest := (List.nodup_cons.mp hd).1
        have hempty : rest.filter (fun n => n = a) = [] := by
          apply List.filter_eq_nil_iff.mpr
          intro x hx
          simp only [decide_eq_true_eq]
          exact fun hc => hnr (hc ▸ hx)
        simp [List.filter_cons, hempty]
      · have hb : b ≠ a := by
          intro hc
          subst hc
          exact (List.nodup_cons.mp hd).1 h
        have hrest := ih (List.nodup_cons.mp hd).2 h
        simp [List.filter_cons, hb, hrest]

theorem keys_filter_comm (gens : List (String × CacheEntries)) (p : String → Bool) :
    (gens.filter (fun g => p g.1)).map (fun g => g.1)
      = (gens.map (fun g => g.1)).filter p := by
  rw [List.filter_map]
  rfl

theorem cachesKeys_delete (s : CacheStorage) (a : String) :
    cachesKeys (cachesDelete s a) = (cachesKeys s).filter (fun n => n ≠ a) :=
  keys_filter_comm s.generations (fun n => decide (n ≠ a))

theorem cachesKeys_foldl_delete (L : List String) :
    ∀ s : CacheStorage,
      cachesKeys (L.foldl cachesDelete s) = (cachesKeys s).filter (fun n => n ∉ L) := by
  induction L with
  | nil => intro s; simp
  | cons a L ih =>
      intro s
      rw [List.foldl_cons, ih, cachesKeys_delete, List.filter_filter]
      congr 1
      funext n
      by_cases h1 : n = a
      · simp [h1]
      · by_cases h2 : n ∈ L <;> simp [h1, h2]

theorem cachesKeys_onActivate (s : CacheStorage) :
    cachesKeys (onActivate s).1 = (cachesKeys s).filter (fun n => n = CACHE_NAME) := by
  show cachesKeys
      ((((cachesKeys s).filter (fun n => n ≠ CACHE_NAME)).foldl cachesDelete s))
    = (cachesKeys s).filter (fun n => n = CACHE_NAME)
  rw [cachesKeys_foldl_delete]
  refine List.filter_congr ?_
  intro n hn
  by_cases h : n = CACHE_NAME
  · simp [h, List.mem_filter]
  · simp [h, List.mem_filter, hn]

theorem addAll_eq_none_of_mem_fail (net : String → Option Response)
    (urls : List String) (u : String) (hu : u ∈ urls)
    (hf : ∀ r, net u = some r → fetchOk r = false) : addAll net urls = none := by
  induction urls with
  | nil => simp at hu
  | cons a rest ih =>
      rcases List.mem_cons.mp hu with h | h
      · subst h
        cases hn : net u with
        | none => simp [addAll, hn]
        | some r => simp [addAll, hn, hf r hn]
      · cases hn : net a with
        | none => simp [addAll, hn]
        | some r =>
            by_cases hok : fetchOk r
            · simp [addAll, hn, hok, ih h]
            · simp [addAll, hn, hok]

theorem findGen_put_open_ne (s : CacheStorage) (k : String) (v : Response)
    (g : String) (hg : g ≠ CACHE_NAME) :
    findGen (cachesPut (cachesOpen s CACHE_NAME) CACHE_NAME k v).generations g
      = findGen s.generations g := by
  unfold cachesPut
  rw [findGen_map_put_ne _ _ _ _ _ hg]
  exact findGen_cachesOpen_ne s CACHE_NAME g hg

theorem cachesMatch_go_isSome (k : String) (gens : List (String × CacheEntries)) :
    (cachesMatch.go k gens).isSome ↔ ∃ p ∈ gens, (entriesGet p.2 k).isSome := by
  induction gens with
  | nil => simp [cachesMatch.go]
  | cons g rest ih =>
      obtain ⟨n, es⟩ := g
      cases hg : entriesGet es k
      · simp [cachesMatch.go, hg, ih]
      · simp [cachesMatch.go, hg]

-- ─── Claim theorems ───

/-- C1: for every request whose key is present in the store, the cache-first
strategy returns the stored response, leaves the store unchanged, and never
invokes the network function (its fetch count is zero). -/
theorem cacheFirst_hit_returns_cached_without_fetch
    (s : CacheStorage) (req : Request) (net : Option Response) (r : Response)
    (h : cachesMatch s req.url = some r) :
    cacheFirstStrategy s req net = ⟨r, s, 0⟩ := by
  unfold cacheFirstStrategy
  rw [h]

/-- Witness for C1 at the concrete store holding `/a.png`: the cached
response comes back with zero fetches, whatever the network would answer. -/
theorem cacheFirst_hit_returns_cached_without_fetch_witness :
    cacheFirstStrategy storeA reqA (some resp404) = ⟨respR, storeA, 0⟩ :=
  cacheFirst_hit_returns_cached_without_fetch storeA reqA (some resp404) respR
    (by decide)

/-- C2: on a store miss, the cache-first strategy invokes the network
exactly once and returns the network response itself unmodified; a
structural duplicate (`clone`) is written into the current generation under
the request key exactly when the status is strictly 200, and for any other
status (e.g. 404) the store is left completely unchanged. -/
theorem cacheFirst_miss_caches_only_200
    (s : CacheStorage) (req : Request) (nr : Response)
    (h : cachesMatch s req.url = none) :
    (cacheFirstStrategy s req (some nr)).response = nr ∧
    (cacheFirstStrategy s req (some nr)).fetches = 1 ∧
    Response.clone nr = nr ∧
    (nr.status = 200 →
      (cacheFirstStrategy s req (some nr)).store
          = cachesPut (cachesOpen s CACHE_NAME) CACHE_NAME req.url nr.clone ∧
      cacheGet (cacheFirstStrategy s req (some nr)).store CACHE_NAME req.url
          = some nr.clone) ∧
    (nr.status ≠ 200 → (cacheFirstStrategy s req (some nr)).store = s) := by
  unfold cacheFirstStrategy
  rw [h]
  by_cases hst : nr.status = 200
  · simp [hst, cacheGet_put_open_self, Response.clone_eq]
  · simp [hst, Response.clone_eq]

/-- Witness for C2 at the empty store with a 200 network response for
`/b.png`: the response is handed back unmodified. -/
theorem cacheFirst_miss_caches_only_200_witness :
    (cacheFirstStrategy emptyStore reqB (some respR)).response = respR :=
  (cacheFirst_miss_caches_only_200 emptyStore reqB respR (by decide)).1

/-- C3: the network-first strategy always attempts the fetch (count one in
every case) and returns the fresh response whenever the fetch resolves; on a
200 it also writes a duplicate into the current generation; when the fetch
throws it falls back to the store entry if one exists, and only when both
fail does it synthesize the offline fallback. -/
theorem networkFirst_fetch_then_cache_then_fallback
    (s : CacheStorage) (req : Request) :
    (∀ nr : Response, (networkFirstStrategy s req (some nr)).response = nr ∧
        (networkFirstStrategy s req (some nr)).fetches = 1) ∧
    (∀ nr : Response, nr.status = 200 →
        networkFirstStrategy s req (some nr)
          = ⟨nr, cachesPut (cachesOpen s CACHE_NAME) CACHE_NAME req.url nr.clone, 1⟩ ∧
        cacheGet (networkFirstStrategy s req (some nr)).store CACHE_NAME req.url
          = some nr.clone) ∧
    (∀ r : Response, cachesMatch s req.url = some r →
        networkFirstStrategy s req none = ⟨r, s, 1⟩) ∧
    (cachesMatch s req.url = none →
        networkFirstStrategy s req none = ⟨offlineFallback req, s, 1⟩) := by
  refine ⟨?_, ?_, ?_, ?_⟩
  · intro nr
    unfold networkFirstStrategy
    by_cases hst : nr.status = 200 <;> simp [hst]
  · intro nr hst
    unfold networkFirstStrategy
    simp [hst, cacheGet_put_open_self]
  · intro r hr
    simp [networkFirstStrategy, hr]
  · intro hr
    simp [networkFirstStrategy, hr]

/-- Witness for C3: a fresh 200 font response is returned and duplicated
into the current generation. -/
theorem networkFirst_fetch_then_cache_then_fallback_witness :
    networkFirstStrategy emptyStore reqFont (some respFont)
      = ⟨respFont,
         cachesPut (cachesOpen emptyStore CACHE_NAME) CACHE_NAME reqFont.url
           respFont.clone, 1⟩ :=
  ((networkFirst_fetch_then_cache_then_fallback emptyStore reqFont).2.1 respFont
    (by decide)).1

/-- C4, evaluated at the failing input: for a non-HTML request (destination
`"image"`, no `accept` header) `offlineFallback` does return status 503 with
status text "Service Unavailable", but its body is the string `"Offline"` —
not empty, contradicting both the claim and the source's own comment
("return an empty 503", src/sw.js line 211). -/
theorem offlineFallback_image_body_offline_not_empty :
    offlineFallback reqA = ⟨503, "Service Unavailable", "Offline", none⟩ ∧
    (offlineFallback reqA).body = "Offline" ∧
    (offlineFallback reqA).body ≠ "" := by
  refine ⟨by decide, by decide, by decide⟩

/-- C5: if any single manifest URL fails to fetch (the fetch throws, or it
resolves with a non-ok status), the whole install step fails atomically: the
store is left with only the freshly opened, still-empty current generation
(no partial manifest), `skipWaiting` is never signalled, and the failure is
logged by the final `.catch` instead of propagating. -/
theorem install_precache_failure_atomic
    (s : CacheStorage) (net : String → Option Response) (u : String)
    (hu : u ∈ PRECACHE_ASSETS)
    (hf : ∀ r, net u = some r → fetchOk r = false) :
    onInstall s net = ⟨cachesOpen s CACHE_NAME, false, true⟩ := by
  unfold onInstall
  rw [addAll_eq_none_of_mem_fail net PRECACHE_ASSETS u hu hf]

/-- Witness for C5: with a network where every fetch throws, install on an
empty store fails, creates no entries, and does not signal readiness. -/
theorem install_precache_failure_atomic_witness :
    onInstall emptyStore (fun _ => none)
      = ⟨cachesOpen emptyStore CACHE_NAME, false, true⟩ :=
  install_precache_failure_atomic emptyStore (fun _ => none) "/"
    (by decide) (fun r h => by simp at h)

/-- C6 counterexample: with initial generation set `{"v1"}` (the current tag
absent), activation deletes everything and the listed tags afterwards are
`[]`, not exactly the current tag — refuting "for any initial set of
generation tags, listing the tags afterwards yields only the current one"
read as "exactly the current generation remains". -/
theorem activate_absent_current_leaves_nothing :
    cachesKeys (onActivate ⟨[("v1", [])]⟩).1 = ([] : List String) ∧
    ([] : List String) ≠ [CACHE_NAME] := by
  refine ⟨by decide, by decide⟩

/-- C6 (amended): activation deletes exactly the generations whose tag
differs from the current tag and claims clients only after every deletion,
so the tags listed afterwards are the initial tags filtered to the current
one — in particular exactly `[CACHE_NAME]` whenever the current tag was
initially present (tags being unique). -/
theorem activate_sweeps_all_but_current (s : CacheStorage) :
    cachesKeys (onActivate s).1 = (cachesKeys s).filter (fun n => n = CACHE_NAME) ∧
    (∀ n, SWEvent.deleteGen n ∈ (onActivate s).2
        ↔ (n ∈ cachesKeys s ∧ n ≠ CACHE_NAME)) ∧
    (onActivate s).2.getLast? = some SWEvent.claimClients ∧
    SWEvent.claimClients ∉ (onActivate s).2.dropLast ∧
    ((cachesKeys s).Nodup → CACHE_NAME ∈ cachesKeys s →
        cachesKeys (onActivate s).1 = [CACHE_NAME]) := by
  refine ⟨cachesKeys_onActivate s, ?_, ?_, ?_, ?_⟩
  · intro n
    show SWEvent.deleteGen n
        ∈ ((cachesKeys s).filter (fun m => m ≠ CACHE_NAME)).map SWEvent.deleteGen
          ++ [SWEvent.claimClients] ↔ _
    simp [List.mem_filter]
  · show (((cachesKeys s).filter (fun m => m ≠ CACHE_NAME)).map SWEvent.deleteGen
        ++ [SWEvent.claimClients]).getLast? = _
    simp
  · show SWEvent.claimClients
        ∉ (((cachesKeys s).filter (fun m => m ≠ CACHE_NAME)).map SWEvent.deleteGen
            ++ [SWEvent.claimClients]).dropLast
    rw [List.dropLast_concat]
    simp
  · intro hd hm
    rw [cachesKeys_onActivate s]
    exact filter_eq_singleton_of_nodup (cachesKeys s) CACHE_NAME hd hm

/-- Witness for C6's amended theorem: two generations, the current one
present — after activation exactly the current tag remains. -/
theorem activate_sweeps_all_but_current_witness :
    cachesKeys (onActivate twoGenStore).1 = [CACHE_NAME] :=
  (activate_sweeps_all_but_current twoGenStore).2.2.2.2 (by decide) (by decide)

/-- C7 counterexample: a GET request with scheme `httpx:` — not http(s) — is
nevertheless dispatched to the cache-first strategy, because the source
tests `url.protocol.startsWith('http')`, a prefix test, not equality with
http/https.  This refutes "requests whose URL scheme is not http(s) are not
intercepted" as stated. -/
theorem route_intercepts_httpx_scheme :
    reqHttpx.protocol ≠ "http:" ∧ reqHttpx.protocol ≠ "https:" ∧
    route reqHttpx = RouteDecision.cacheFirst ∧
    route reqHttpx ≠ RouteDecision.bypass := by
  refine ⟨by decide, by decide, by decide, by decide⟩

/-- C7 (amended): the fetch listener's ordered rule — non-GET methods are
never intercepted (no strategy invoked, so no store access); requests whose
URL protocol does not START WITH `"http"` are never intercepted; GET
requests over such protocols to the two font-serving hostnames go to the
network-first strategy; all remaining GET requests go to the cache-first
strategy. -/
theorem route_ordered_dispatch
    (s : CacheStorage) (req : Request) (net : Option Response) :
    (req.method ≠ "GET" →
        route req = RouteDecision.bypass ∧ handleFetch s req net = none) ∧
    (strStarts req.protocol "http" = false →
        route req = RouteDecision.bypass ∧ handleFetch s req net = none) ∧
    (req.method = "GET" → strStarts req.protocol "http" = true →
        (req.hostname = "fonts.googleapis.com"
          ∨ req.hostname = "fonts.gstatic.com") →
        route req = RouteDecision.networkFirst ∧
        handleFetch s req net = some (networkFirstStrategy s req net)) ∧
    (req.method = "GET" → strStarts req.protocol "http" = true →
        req.hostname ≠ "fonts.googleapis.com" →
        req.hostname ≠ "fonts.gstatic.com" →
        route req = RouteDecision.cacheFirst ∧
        handleFetch s req net = some (cacheFirstStrategy s req net)) := by
  refine ⟨?_, ?_, ?_, ?_⟩
  · intro h
    have hr : route req = RouteDecision.bypass := by simp [route, h]
    exact ⟨hr, by simp [handleFetch, hr]⟩
  · intro h
    by_cases hm : req.method = "GET"
    · have hr : route req = RouteDecision.bypass := by simp [route, hm, h]
      exact ⟨hr, by simp [handleFetch, hr]⟩
    · have hr : route req = RouteDecision.bypass := by simp [route, hm]
      exact ⟨hr, by simp [handleFetch, hr]⟩
  · intro hm hp hh
    have hr : route req = RouteDecision.networkFirst := by simp [route, hm, hp, hh]
    exact ⟨hr, by simp [handleFetch, hr]⟩
  · intro hm hp h1 h2
    have hr : route req = RouteDecision.cacheFirst := by simp [route, hm, hp, h1, h2]
    exact ⟨hr, by simp [handleFetch, hr]⟩

/-- Witness for C7's amended theorem: a POST request bypasses the engine —
no strategy is invoked and the store is never touched. -/
theorem route_ordered_dispatch_witness :
    route reqPost = RouteDecision.bypass ∧
    handleFetch emptyStore reqPost (some respR) = none :=
  (route_ordered_dispatch emptyStore reqPost (some respR)).1 (by decide)

/-- C8: when the network fetch throws, both strategies catch the failure at
the strategy boundary and still resolve to a response: the globally matched
store entry when one exists, the synthesized fallback otherwise — never a
propagated rejection. -/
theorem strategies_resolve_on_network_failure
    (s : CacheStorage) (req : Request) :
    (cacheFirstStrategy s req none).response
        = (match cachesMatch s req.url with
           | some r => r
           | none => offlineFallback req) ∧
    (networkFirstStrategy s req none).response
        = (match cachesMatch s req.url with
           | some r => r
           | none => offlineFallback req) := by
  constructor
  · unfold cacheFirstStrategy
    cases cachesMatch s req.url <;> simp
  · unfold networkFirstStrategy
    cases cachesMatch s req.url <;> simp

/-- C9: the message handler invokes `skipWaiting` exactly once for a message
of type `"SKIP_WAITING"`, and zero times (with no error — it is a total
function) for any other message, including an absent payload. -/
theorem onMessage_skip_waiting_exactly_once (d : MessageData) :
    (d.type = "SKIP_WAITING" → onMessage (some d) = 1) ∧
    (d.type ≠ "SKIP_WAITING" → onMessage (some d) = 0) ∧
    onMessage none = 0 := by
  refine ⟨fun h => by simp [onMessage, h], fun h => by simp [onMessage, h], rfl⟩

/-- Witness for C9: the recognized type fires the takeover exactly once; an
unrecognized type fires nothing. -/
theorem onMessage_skip_waiting_exactly_once_witness :
    onMessage (some ⟨"SKIP_WAITING"⟩) = 1 ∧ onMessage (some ⟨"PING"⟩) = 0 :=
  ⟨(onMessage_skip_waiting_exactly_once ⟨"SKIP_WAITING"⟩).1 rfl,
   (onMessage_skip_waiting_exactly_once ⟨"PING"⟩).2.1 (by decide)⟩

/-- C10: every write either strategy performs touches only the current
generation `CACHE_NAME` (any differently-named generation is left exactly as
it was, whatever the network does), while reads go through the global
`caches.match`, which succeeds exactly when ANY generation holds the key;
consequently a request can be served from a stale, not-yet-swept generation
— concretely, the entry of generation `"space-observation-journal-v0"` is
served by cache-first with no fetch, until activation deletes that
generation. -/
theorem strategy_writes_current_reads_global :
    (∀ (s : CacheStorage) (req : Request) (net : Option Response) (g : String),
        g ≠ CACHE_NAME →
        findGen (cacheFirstStrategy s req net).store.generations g
            = findGen s.generations g ∧
        findGen (networkFirstStrategy s req net).store.generations g
            = findGen s.generations g) ∧
    (∀ (s : CacheStorage) (k : String),
        (cachesMatch s k).isSome ↔ ∃ p ∈ s.generations, (entriesGet p.2 k).isSome) ∧
    cacheFirstStrategy staleStore reqOld none = ⟨respOld, staleStore, 0⟩ ∧
    cachesMatch (onActivate staleStore).1 reqOld.url = none := by
  refine ⟨?_, ?_, by decide, by decide⟩
  · intro s req net g hg
    constructor
    · unfold cacheFirstStrategy
      cases cachesMatch s req.url
      · cases net with
        | none => rfl
        | some nr =>
            by_cases hst : nr.status = 200
            · simp only [hst, if_true]
              exact findGen_put_open_ne s req.url nr.clone g hg
            · simp [hst]
      · rfl
    · unfold networkFirstStrategy
      cases net with
      | none => cases cachesMatch s req.url <;> rfl
      | some nr =>
          by_cases hst : nr.status = 200
          · simp only [hst, if_true]
            exact findGen_put_open_ne s req.url nr.clone g hg
          · simp [hst]
  · intro s k
    exact cachesMatch_go_isSome k s.generations

/-- Witness for C10: a cache-first write of a 200 response leaves the stale
generation untouched. -/
theorem strategy_writes_current_reads_global_witness :
    findGen (cacheFirstStrategy staleStore reqB (some respR)).store.generations
        "space-observation-journal-v0"
      = findGen staleStore.generations "space-observation-journal-v0" :=
  (strategy_writes_current_reads_global.1 staleStore reqB (some respR)
    "space-observation-journal-v0" (by decide)).1
